import Mathlib

set_option maxRecDepth 100000

/-!
Shallow embedding of `src/script/mic_array/filters.py` (xmos lib_mic_array model
of the two-stage PDM-to-PCM decimation filter chain), and proofs about it.

Modelling conventions:
* numpy float64 coefficient arithmetic is embedded as exact rational (`ℚ`)
  arithmetic; `np.round` is round-half-to-even (`roundHalfEven`).
* numpy integer dtypes are embedded as `ℤ` together with explicit
  two's-complement reductions (`toInt16`, `toInt32`, `toInt64`) wherever the
  source casts or assigns into a fixed-width array.
* numpy exceptions (assertion failures, negative array dimensions, broadcast
  shape mismatches, division by zero) are embedded as `Option.none`.
* a signal is a single channel, a `List` of samples; the source processes each
  row of a (channels x samples) array independently, so one channel captures
  the per-channel behaviour the specification describes.
-/

/-- Two's-complement reduction of an integer to 16 bits, the effect of
numpy `astype(np.int16)` on an integral value. -/
def toInt16 (x : ℤ) : ℤ := (x + 32768) % 65536 - 32768

/-- Two's-complement reduction of an integer to 32 bits, the effect of
numpy `astype(np.int32)` or assignment into an `np.int32` array. -/
def toInt32 (x : ℤ) : ℤ := (x + 2147483648) % 4294967296 - 2147483648

/-- Two's-complement reduction of an integer to 64 bits, the wraparound of
numpy `np.int64` accumulation. -/
def toInt64 (x : ℤ) : ℤ := (x + 9223372036854775808) % 18446744073709551616 - 9223372036854775808

/-- numpy `np.round`: round to the nearest integer, ties to the nearest even
integer (banker's rounding). -/
def roundHalfEven (q : ℚ) : ℤ :=
  if Int.fract q < 1 / 2 then ⌊q⌋
  else if 1 / 2 < Int.fract q then ⌊q⌋ + 1
  else if ⌊q⌋ % 2 = 0 then ⌊q⌋ else ⌊q⌋ + 1

/-- Dot product of two equally long vectors, `np.matmul` of a row with a
column (or `np.dot` of two 1-D arrays). -/
def dotProd {α : Type} [Mul α] [AddMonoid α] (a b : List α) : α :=
  (List.zipWith (fun x y => x * y) a b).sum

/-- The window `S[start : start + len]` that the filtering loops slice out of
the padded signal. -/
def window {α : Type} (S : List α) (start len : ℕ) : List α :=
  (S.drop start).take len

/-- Helper for `argmaxAbs`: scan the tail holding the current running index
`i`, best index `bi` and best absolute value `bv`. -/
def argmaxAbsAux : List ℚ → ℕ → ℕ → ℚ → ℕ
  | [], _, bi, _ => bi
  | x :: xs, i, bi, bv =>
      if bv < |x| then argmaxAbsAux xs (i + 1) i |x|
      else argmaxAbsAux xs (i + 1) bi bv

/-- numpy `np.argmax(np.abs(coefs))`: the first index attaining the maximal
absolute value. On the empty list numpy raises; we return the junk value 0 and
exclude the empty list through the validity predicates. -/
def argmaxAbs : List ℚ → ℕ
  | [] => 0
  | x :: xs => argmaxAbsAux xs 1 0 |x|

/-- Number of positions at which the two binary vectors differ:
`np.sum(1 * ~(vC == mem))`, the population count of their elementwise XOR. -/
def popcountXor (a b : List Bool) : ℤ :=
  ((a.zip b).countP (fun p => Bool.xor p.1 p.2) : ℕ)

/-- `VLMACCR1` from src: the single-block binary-correlation primitive.
Asserts both inputs are 1-D with exactly 256 elements (embedded: `none` on a
length mismatch), then returns `acc + (128 - popcount(vC XOR mem))`. -/
def VLMACCR1 (vC mem : List Bool) (acc : ℤ) : Option ℤ :=
  if vC.length = 256 ∧ mem.length = 256 then
    some (acc + (128 - popcountXor vC mem))
  else none

/-- `Stage1Filter` from src: the raw state set by the constructor is the
1-D float coefficient array and the decimation factor (default 32); the
quantized and bit-level forms are derived functions below. -/
structure Stage1Filter where
  coefs : List ℚ
  dec_factor : ℕ

/-- Property `DecimationFactor`. -/
def Stage1Filter.DecimationFactor (f : Stage1Filter) : ℕ := f.dec_factor

/-- Property `TapCount` (`len(self.coefs)`). -/
def Stage1Filter.TapCount (f : Stage1Filter) : ℕ := f.coefs.length

/-- Property `BlockCount` (`len(self.coefs) // 256`). -/
def Stage1Filter.BlockCount (f : Stage1Filter) : ℕ := f.coefs.length / 256

/-- The peak index `t = np.argmax(np.abs(coefs))` of the constructor. -/
def Stage1Filter.peakIdx (f : Stage1Filter) : ℕ := argmaxAbs f.coefs

/-- The peak coefficient `coefs[t]`. -/
def Stage1Filter.peakCoef (f : Stage1Filter) : ℚ := f.coefs.getD f.peakIdx 0

/-- `self.scale_int16 = INT16_MAX_COEFFICIENT / self.coefs[t]` with
`INT16_MAX_COEFFICIENT = 32766`.  (numpy: division by a zero peak yields
inf; in `ℚ` division by zero yields the junk value 0 - in either convention
the quantization below does not produce the nominal peak value then.) -/
def Stage1Filter.scale_int16 (f : Stage1Filter) : ℚ := 32766 / f.peakCoef

/-- `self.coefs_int16 = np.round(self.scale_int16 * self.coefs).astype(np.int16)`. -/
def Stage1Filter.coefs_int16 (f : Stage1Filter) : List ℤ :=
  f.coefs.map (fun c => toInt16 (roundHalfEven (f.scale_int16 * c)))

/-- The constructor's assertions: 1-D is inherent in the list embedding;
`len(coefs) % 256 == 0`; `np.argmax` on an empty array raises (so a
constructed filter is nonempty); `abs(coefs[t]) <= 1.0`. -/
def Stage1Filter.Valid (f : Stage1Filter) : Prop :=
  f.coefs ≠ [] ∧ f.coefs.length % 256 = 0 ∧ |f.peakCoef| ≤ 1

instance (f : Stage1Filter) : Decidable f.Valid := by
  unfold Stage1Filter.Valid
  infer_instance

/-- `Stage1Filter._pad_input` at an integer dtype: a `(CHANS, P + SAMP_IN)`
zero array whose first `P = TapCount - DecimationFactor` columns are set to
the alternating pattern `2 * (np.arange(P) % 2) - 1` and whose remaining
columns are the input signal.  Callers guard `DecimationFactor <= TapCount`;
for a larger decimation factor numpy raises (negative dimension or broadcast
mismatch) before producing anything. -/
def Stage1Filter.pad_input (f : Stage1Filter) (sig : List ℤ) : List ℤ :=
  (List.range (f.TapCount - f.DecimationFactor)).map
    (fun i => 2 * ((i % 2 : ℕ) : ℤ) - 1) ++ sig

/-- `Stage1Filter._pad_input` at the float dtype used by `FilterFloat`. -/
def Stage1Filter.pad_input_float (f : Stage1Filter) (sig : List ℚ) : List ℚ :=
  (List.range (f.TapCount - f.DecimationFactor)).map
    (fun i => 2 * ((i % 2 : ℕ) : ℚ) - 1) ++ sig

/-- `Stage1Filter.FilterFloat`: output sample `k` is the dot product of the
window `S[Q*k : Q*k + TapCount]` of the padded signal with the float
coefficients.  numpy raises when the decimation factor is zero
(`SAMPS_IN // 0`) or exceeds the tap count (negative padding); those calls
are embedded as `none`. -/
def Stage1Filter.FilterFloat (f : Stage1Filter) (sig : List ℚ) : Option (List ℚ) :=
  if 0 < f.DecimationFactor ∧ f.DecimationFactor ≤ f.TapCount then
    some ((List.range (sig.length / f.DecimationFactor)).map
      (fun k => dotProd (window (f.pad_input_float sig) (f.DecimationFactor * k) f.TapCount)
        f.coefs))
  else none

/-- `Stage1Filter.FilterInt16`: the same windowing over the padded signal,
a dot product with the int16 coefficients accumulated into an `np.int32`
result array (two's-complement wraparound on assignment), and a final
`res << 8` int32 left shift. -/
def Stage1Filter.FilterInt16 (f : Stage1Filter) (sig : List ℤ) : Option (List ℤ) :=
  if 0 < f.DecimationFactor ∧ f.DecimationFactor ≤ f.TapCount then
    some ((List.range (sig.length / f.DecimationFactor)).map
      (fun k => toInt32 (toInt32 (dotProd (window (f.pad_input sig) (f.DecimationFactor * k) f.TapCount)
        f.coefs_int16) * 256)))
  else none

/-- Modelled from the spec: `util.int16_vect_to_bipolar_matrix` (the module
`util` is not under src/).  Per the spec each 16-bit coefficient is expanded
into a 16-wide row of plus/minus-one values, one per bit plane of its dual
sign/magnitude encoding; only the 16-wide shape of the rows is fixed by the
spec, so the bit-plane polarity chosen here makes the derived binary matrix
hold the plain two's-complement bits. -/
def int16_vect_to_bipolar_matrix (v : List ℤ) : List (List ℤ) :=
  v.map (fun c => (List.range 16).map
    (fun b => if ((c % 65536).toNat).testBit b then -1 else 1))

/-- numpy transpose of a matrix with rows of width 16 (the shape
`int16_vect_to_bipolar_matrix` produces). -/
def bipolarTranspose (m : List (List ℤ)) : List (List ℤ) :=
  (List.range 16).map (fun j => m.map (fun row => row.getD j 0))

/-- `self.coefs_bipolar`. -/
def Stage1Filter.coefs_bipolar (f : Stage1Filter) : List (List ℤ) :=
  int16_vect_to_bipolar_matrix f.coefs_int16

/-- `self.coefs_binary = (1 - self.coefs_bipolar.T) // 2`. -/
def Stage1Filter.coefs_binary (f : Stage1Filter) : List (List ℤ) :=
  (bipolarTranspose f.coefs_bipolar).map (fun row => row.map (fun x => (1 - x) / 2))

/-- `Stage1Filter.ToXCoreCoefArray`.  The numpy pipeline
`reshape(size // 256, 8, 32)`, `flip(axis=1)`, `flip(axis=2)`,
`reshape(size // 32, 32)` is the index permutation sending word `k`,
bit `j` to flat element `256 * (k / 8) + 32 * (7 - k % 8) + (31 - j)` of the
row-major binary matrix; each 32-bit row is then packed MSB-first with the
weight vector `F = np.flip(2 ** np.arange(32))`, i.e. weight `2 ^ (31 - j)`. -/
def Stage1Filter.ToXCoreCoefArray (f : Stage1Filter) : List ℤ :=
  let flat := f.coefs_binary.flatten
  (List.range (flat.length / 32)).map (fun k =>
    ((List.range 32).map (fun j =>
      2 ^ (31 - j) * flat.getD (256 * (k / 8) + 32 * (7 - k % 8) + (31 - j)) 0)).sum)

/-- `Stage2Filter` from src: raw constructor state, as for stage 1 (no
block-alignment requirement and no default decimation factor). -/
structure Stage2Filter where
  coefs : List ℚ
  dec_factor : ℕ

/-- Property `DecimationFactor`. -/
def Stage2Filter.DecimationFactor (f : Stage2Filter) : ℕ := f.dec_factor

/-- Property `TapCount`. -/
def Stage2Filter.TapCount (f : Stage2Filter) : ℕ := f.coefs.length

/-- The peak index `t = np.argmax(np.abs(coefs))`. -/
def Stage2Filter.peakIdx (f : Stage2Filter) : ℕ := argmaxAbs f.coefs

/-- The peak coefficient `coefs[t]`. -/
def Stage2Filter.peakCoef (f : Stage2Filter) : ℚ := f.coefs.getD f.peakIdx 0

/-- `self.scale_int32 = INT32_MAX_COEFFICIENT / self.coefs[t]` with
`INT32_MAX_COEFFICIENT = (2 ** 31) - 1`. -/
def Stage2Filter.scale_int32 (f : Stage2Filter) : ℚ := 2147483647 / f.peakCoef

/-- `self.coefs_int32 = np.round(self.scale_int32 * self.coefs).astype(np.int32)`. -/
def Stage2Filter.coefs_int32 (f : Stage2Filter) : List ℤ :=
  f.coefs.map (fun c => toInt32 (roundHalfEven (f.scale_int32 * c)))

/-- `max_samp_out = np.dot(np.int64(0x7FFFFF00) * np.sign(coefs_int32),
np.round(coefs_int32 / 2 ** 30))`: the worst-case one-block stage-1 output
magnitude `0x7FFFFF00 = 2147483392`, signed by each int32 coefficient's sign,
against the coefficients scaled by `2 ^ (-30)` and rounded.  Accumulated in
`np.int64`; the wraparound is unreachable for any tap count below `2 ^ 30`
(each summand has magnitude at most `2 ^ 33`), so the sum is kept exact. -/
def Stage2Filter.maxSampOut (f : Stage2Filter) : ℤ :=
  (f.coefs_int32.map (fun c => 2147483392 * Int.sign c * roundHalfEven ((c : ℚ) / 2 ^ 30))).sum

/-- `self.shr_int32 = np.int(np.floor(np.log2(max_samp_out) - 30))`.
For an integer `S > 0` the floor of its base-2 logarithm is `Nat.log2`;
for `S <= 0` numpy's `np.int(...)` raises on the resulting nan or negative infinity, so a
constructed filter always has `max_samp_out > 0` (part of `Valid`). -/
def Stage2Filter.shr_int32 (f : Stage2Filter) : ℤ :=
  (Nat.log2 f.maxSampOut.toNat : ℤ) - 30

/-- The constructor's success conditions: the assertions (1-D inherent,
nonempty so `np.argmax` succeeds, peak magnitude at most 1) and a positive
`max_samp_out` so the `np.log2`/`np.int` derivation of `shr_int32` succeeds. -/
def Stage2Filter.Valid (f : Stage2Filter) : Prop :=
  f.coefs ≠ [] ∧ |f.peakCoef| ≤ 1 ∧ 0 < f.maxSampOut

/-- `Stage2Filter._pad_input`: left padding with `TapCount - DecimationFactor`
zeros (no alternating pattern at stage 2), at the integer dtype. -/
def Stage2Filter.pad_input (f : Stage2Filter) (sig : List ℤ) : List ℤ :=
  List.replicate (f.TapCount - f.DecimationFactor) 0 ++ sig

/-- `Stage2Filter._pad_input` at the float dtype used by `FilterFloat`. -/
def Stage2Filter.pad_input_float (f : Stage2Filter) (sig : List ℚ) : List ℚ :=
  List.replicate (f.TapCount - f.DecimationFactor) 0 ++ sig

/-- `Stage2Filter.FilterFloat`: windows of the zero-padded signal against the
time-reversed (`np.flip`) float coefficients.  As at stage 1, a zero or
too-large decimation factor makes numpy raise, embedded as `none`. -/
def Stage2Filter.FilterFloat (f : Stage2Filter) (sig : List ℚ) : Option (List ℚ) :=
  if 0 < f.DecimationFactor ∧ f.DecimationFactor ≤ f.TapCount then
    some ((List.range (sig.length / f.DecimationFactor)).map
      (fun k => dotProd (window (f.pad_input_float sig) (f.DecimationFactor * k) f.TapCount)
        f.coefs.reverse))
  else none

/-- `Stage2Filter.FilterInt32`: windows of the zero-padded signal against the
flipped int32 coefficients cast to `np.int64` (64-bit wraparound
accumulation), rescaled by the exact power of two `2 ^ (-30 - shr_int32)`,
rounded half-to-even (`np.round`), and cast to `np.int32`. -/
def Stage2Filter.FilterInt32 (f : Stage2Filter) (sig : List ℤ) : Option (List ℤ) :=
  if 0 < f.DecimationFactor ∧ f.DecimationFactor ≤ f.TapCount then
    some ((List.range (sig.length / f.DecimationFactor)).map
      (fun k => toInt32 (roundHalfEven
        ((toInt64 (dotProd (window (f.pad_input sig) (f.DecimationFactor * k) f.TapCount)
          f.coefs_int32.reverse) : ℚ) * (2 : ℚ) ^ (-(30 + f.shr_int32))))))
  else none

/-- `TwoStageFilter` from src: holds the two stages. -/
structure TwoStageFilter where
  s1 : Stage1Filter
  s2 : Stage2Filter

/-- Property `DecimationFactor`: the product of both stages' factors. -/
def TwoStageFilter.DecimationFactor (t : TwoStageFilter) : ℕ :=
  t.s1.DecimationFactor * t.s2.DecimationFactor

/-- `TwoStageFilter.Filter`: stage-1 fixed-point output fed directly into
stage-2 fixed-point input (`Option.bind` propagates a raising call). -/
def TwoStageFilter.Filter (t : TwoStageFilter) (pdm_signal : List ℤ) : Option (List ℤ) :=
  (t.s1.FilterInt16 pdm_signal).bind (fun s1_output => t.s2.FilterInt32 s1_output)

/-- The `truncate_s1` pre-processing step of `load` from src:
`p = len(stage1[0]) % 256; stage1[0] = stage1[0][:-p]`.  Python's slice
`[:-p]` has stop index `-p`; for `p > 0` that drops the last `p` elements,
but for `p = 0` the stop index is `0` and the slice is empty. -/
def truncate_s1 (coefs : List ℚ) : List ℚ :=
  let p := coefs.length % 256
  coefs.take (if p = 0 then 0 else coefs.length - p)

/-- Compute `roundHalfEven` from bounds placing the argument strictly below
the half-way point above `n`. -/
theorem roundHalfEven_eq_left {q : ℚ} {n : ℤ} (h1 : (n : ℚ) ≤ q) (h2 : q < n + 1 / 2) :
    roundHalfEven q = n := by
  have hfl : ⌊q⌋ = n := by
    rw [Int.floor_eq_iff]
    constructor
    · exact h1
    · calc q < (n : ℚ) + 1 / 2 := h2
        _ < n + 1 := by norm_num
  have hfr : Int.fract q < 1 / 2 := by
    have : Int.fract q = q - n := by rw [Int.fract, hfl]
    rw [this]
    linarith
  rw [roundHalfEven, if_pos hfr, hfl]

/-- Compute `roundHalfEven` from bounds placing the argument strictly above
the half-way point above `n`. -/
theorem roundHalfEven_eq_right {q : ℚ} {n : ℤ} (h1 : (n : ℚ) + 1 / 2 < q) (h2 : q < n + 1) :
    roundHalfEven q = n + 1 := by
  have hfl : ⌊q⌋ = n := by
    rw [Int.floor_eq_iff]
    constructor
    · calc (n : ℚ) ≤ n + 1 / 2 := by norm_num
        _ ≤ q := le_of_lt h1
    · exact h2
  have hfr : 1 / 2 < Int.fract q := by
    have : Int.fract q = q - n := by rw [Int.fract, hfl]
    rw [this]
    linarith
  rw [roundHalfEven, if_neg (by linarith), if_pos hfr, hfl]

/-- `roundHalfEven` is the identity on integers. -/
theorem roundHalfEven_intCast (n : ℤ) : roundHalfEven (n : ℚ) = n := by
  apply roundHalfEven_eq_left
  · exact le_refl _
  · norm_num

/-- Equal residues modulo `2 ^ 32` give equal two's-complement reductions. -/
theorem toInt32_congr {x y : ℤ} (h : x % 4294967296 = y % 4294967296) :
    toInt32 x = toInt32 y := by
  unfold toInt32
  omega

/-- Wrapping a 32-bit value before an int32 left shift by 8 agrees with
wrapping the shifted exact sum once. -/
theorem toInt32_wrap_mul256 (d : ℤ) : toInt32 (toInt32 d * 256) = toInt32 (256 * d) := by
  apply toInt32_congr
  unfold toInt32
  omega

/-- The dot product of integer vectors is symmetric. -/
theorem dotProd_comm (a b : List ℤ) : dotProd a b = dotProd b a := by
  induction a generalizing b with
  | nil => cases b <;> rfl
  | cons x xs ih =>
    cases b with
    | nil => rfl
    | cons y ys =>
      simp only [dotProd, List.zipWith_cons_cons, List.sum_cons] at ih ⊢
      rw [mul_comm, ih]

/-- Indexing a map over `List.range`. -/
theorem range_map_getElem? {α : Type} (g : ℕ → α) {n k : ℕ} (hk : k < n) :
    ((List.range n).map g)[k]? = some (g k) := by
  simp [hk]

/-- The running best index of the `argmaxAbs` scan stays below the total
index range. -/
theorem argmaxAbsAux_lt (xs : List ℚ) (i bi : ℕ) (bv : ℚ) (h : bi < i) :
    argmaxAbsAux xs i bi bv < i + xs.length := by
  induction xs generalizing i bi bv with
  | nil => simpa [argmaxAbsAux] using h
  | cons x xs ih =>
    rw [argmaxAbsAux]
    by_cases hx : bv < |x|
    · rw [if_pos hx]
      have := ih (i + 1) i |x| (Nat.lt_succ_self i)
      simpa [Nat.add_assoc, Nat.add_comm, Nat.add_left_comm] using this
    · rw [if_neg hx]
      have := ih (i + 1) bi bv (Nat.lt_succ_of_lt h)
      simpa [Nat.add_assoc, Nat.add_comm, Nat.add_left_comm] using this

/-- `np.argmax` returns an index of the array. -/
theorem argmaxAbs_lt_length {l : List ℚ} (h : l ≠ []) : argmaxAbs l < l.length := by
  cases l with
  | nil => exact absurd rfl h
  | cons x xs =>
    have := argmaxAbsAux_lt xs 1 0 |x| Nat.one_pos
    simpa [argmaxAbs, Nat.add_comm] using this

/-- `getD` into a mapped list at an index inside the list. -/
theorem getD_map_of_lt {α β : Type} [Inhabited β] (g : α → β) (l : List α) (d : α) (e : β)
    {t : ℕ} (h : t < l.length) : (l.map g).getD t e = g (l.getD t d) := by
  rw [List.getD_eq_getElem?_getD, List.getD_eq_getElem?_getD, List.getElem?_map,
    List.getElem?_eq_getElem h]
  rfl

/-- Round-half-to-even is an odd function. -/
theorem roundHalfEven_neg (q : ℚ) : roundHalfEven (-q) = -roundHalfEven q := by
  by_cases hz : Int.fract q = 0
  · have hq : q = (⌊q⌋ : ℚ) := by
      rw [Int.fract] at hz
      linarith
    rw [hq, ← Int.cast_neg, roundHalfEven_intCast, roundHalfEven_intCast]
  · have h0 : 0 < Int.fract q := lt_of_le_of_ne (Int.fract_nonneg q) (Ne.symm hz)
    have h1 : Int.fract q < 1 := Int.fract_lt_one q
    have hneg : Int.fract (-q) = 1 - Int.fract q := Int.fract_neg hz
    have hflr : ⌊-q⌋ = -⌊q⌋ - 1 := by
      have e1 : Int.fract q = q - ⌊q⌋ := rfl
      have e2 : Int.fract (-q) = -q - ⌊-q⌋ := rfl
      have : ((⌊-q⌋ : ℤ) : ℚ) = ((-⌊q⌋ - 1 : ℤ) : ℚ) := by
        push_cast
        rw [e1, e2] at hneg
        linarith
      exact_mod_cast this
    unfold roundHalfEven
    rcases lt_trichotomy (Int.fract q) (1 / 2) with hlt | heq | hgt
    · have c1 : ¬ Int.fract (-q) < 1 / 2 := by rw [hneg]; linarith
      have c2 : 1 / 2 < Int.fract (-q) := by rw [hneg]; linarith
      rw [if_neg c1, if_pos c2, if_pos hlt, hflr]
      omega
    · have hnq : Int.fract (-q) = 1 / 2 := by rw [hneg, heq]; norm_num
      have c1 : ¬ Int.fract (-q) < 1 / 2 := by rw [hnq]; exact lt_irrefl _
      have c2 : ¬ 1 / 2 < Int.fract (-q) := by rw [hnq]; exact lt_irrefl _
      have c3 : ¬ Int.fract q < 1 / 2 := by rw [heq]; exact lt_irrefl _
      have c4 : ¬ 1 / 2 < Int.fract q := by rw [heq]; exact lt_irrefl _
      rw [if_neg c1, if_neg c2, if_neg c3, if_neg c4, hflr]
      by_cases hpar : ⌊q⌋ % 2 = 0
      · rw [if_pos hpar, if_neg (by omega)]
        omega
      · rw [if_neg hpar, if_pos (by omega)]
        omega
    · have c1 : Int.fract (-q) < 1 / 2 := by rw [hneg]; linarith
      have c3 : ¬ Int.fract q < 1 / 2 := by linarith
      rw [if_pos c1, if_neg c3, if_pos hgt, hflr]
      omega

/-- A vector never disagrees with itself. -/
theorem popcountXor_self (a : List Bool) : popcountXor a a = 0 := by
  unfold popcountXor
  have h : (a.zip a).countP (fun p => Bool.xor p.1 p.2) = 0 := by
    induction a with
    | nil => rfl
    | cons x xs ih => simpa [List.countP_cons] using ih
  rw [h]
  rfl

/-- A vector disagrees with its complement everywhere. -/
theorem popcountXor_not (a : List Bool) : popcountXor a (a.map not) = a.length := by
  unfold popcountXor
  have h : (a.zip (a.map not)).countP (fun p => Bool.xor p.1 p.2) = a.length := by
    induction a with
    | nil => rfl
    | cons x xs ih => cases x <;> simpa [List.countP_cons] using ih
  rw [h]

/-- The disagreement count is nonnegative. -/
theorem popcountXor_nonneg (a b : List Bool) : 0 ≤ popcountXor a b := Int.ofNat_nonneg _

/-- The disagreement count of two 256-vectors is at most 256. -/
theorem popcountXor_le_256 {a b : List Bool} (ha : a.length = 256) (hb : b.length = 256) :
    popcountXor a b ≤ 256 := by
  unfold popcountXor
  have h := List.countP_le_length (p := fun p => Bool.xor p.1 p.2) (l := a.zip b)
  have hlen : (a.zip b).length = 256 := by
    simp [List.length_zip, ha, hb]
  rw [hlen] at h
  exact_mod_cast h

/-- C5: for boolean vectors of exactly 256 elements, `VLMACCR1` returns
`acc + (128 - popcount(a XOR b))`; in particular self-correlation gives 128,
correlation with the complement gives -128, the un-accumulated contribution
lies in `[-128, 128]`, and an input of any other length fails the shape
assertion (embedded as `none`). -/
theorem vlmaccr1_binary_correlation (a b : List Bool) (acc : ℤ)
    (ha : a.length = 256) (hb : b.length = 256) :
    VLMACCR1 a b acc = some (acc + (128 - popcountXor a b)) ∧
    VLMACCR1 a a 0 = some 128 ∧
    VLMACCR1 a (a.map not) 0 = some (-128) ∧
    (-128 ≤ 128 - popcountXor a b ∧ 128 - popcountXor a b ≤ 128) ∧
    (∀ c : List Bool, ∀ acc2 : ℤ, c.length ≠ 256 →
      VLMACCR1 c b acc2 = none ∧ VLMACCR1 a c acc2 = none) := by
  refine ⟨?_, ?_, ?_, ⟨?_, ?_⟩, ?_⟩
  · rw [VLMACCR1, if_pos ⟨ha, hb⟩]
  · rw [VLMACCR1, if_pos ⟨ha, ha⟩, popcountXor_self]
    norm_num
  · rw [VLMACCR1, if_pos ⟨ha, by rw [List.length_map, ha]⟩, popcountXor_not, ha]
    norm_num
  · have := popcountXor_le_256 ha hb
    omega
  · have := popcountXor_nonneg a b
    omega
  · intro c acc2 hc
    constructor
    · rw [VLMACCR1, if_neg (fun h => hc h.1)]
    · rw [VLMACCR1, if_neg (fun h => hc h.2)]

/-- Witness for C5 at two concrete 256-bit vectors and accumulator 3. -/
theorem vlmaccr1_binary_correlation_witness :
    (List.replicate 256 true).length = 256 ∧ (List.replicate 256 false).length = 256 ∧
    VLMACCR1 (List.replicate 256 true) (List.replicate 256 false) 3 =
      some (3 + (128 - popcountXor (List.replicate 256 true) (List.replicate 256 false))) :=
  ⟨by decide, by decide,
    (vlmaccr1_binary_correlation (List.replicate 256 true) (List.replicate 256 false) 3
      (by decide) (by decide)).1⟩

/-- C6: the two-stage decimation factor is the product of the stages'
factors, and the full filter is stage-2 fixed-point filtering applied to the
stage-1 fixed-point output, with no intermediate float round trip. -/
theorem twoStage_composition (t : TwoStageFilter) (sig : List ℤ) :
    t.DecimationFactor = t.s1.DecimationFactor * t.s2.DecimationFactor ∧
    t.Filter sig = (t.s1.FilterInt16 sig).bind (fun s1_output => t.s2.FilterInt32 s1_output) :=
  ⟨rfl, rfl⟩

/-- C8: evaluation of the `load` truncation step.  On a coefficient list
whose length is already a multiple of 256 the Python slice `[:-0]` empties
the list instead of leaving it unchanged (the code bug); on a non-aligned
length it truncates the tail to the nearest multiple of 256 as the spec
says. -/
theorem truncate_s1_aligned_empties :
    truncate_s1 (List.replicate 256 1) = [] ∧
    truncate_s1 (List.replicate 300 1) = List.replicate 256 1 ∧
    (List.replicate 256 (1 : ℚ)).length % 256 = 0 := by
  refine ⟨?_, ?_, by decide⟩
  · simp [truncate_s1]
  · simp [truncate_s1, List.take_replicate]

/-- C1 (amended with the presupposition `1 <= Q <= TapCount`; see the
counterexample below): `FilterInt16` left-pads with `TapCount - Q` samples
alternating `-1, +1, ...` (value `2 * (i % 2) - 1` at pad index `i`), and
output `k` (for every `k < len(sig) / Q`) is the dot product of the int16
coefficients with the padded window `[Q*k, Q*k + TapCount)`, accumulated in
wrapping 32-bit arithmetic and left-shifted by 8 bits (the composite of the
int32 accumulation wrap and the int32 shift equals one 32-bit reduction of
`256 *` the exact dot product). -/
theorem stage1_filterInt16_windows (f : Stage1Filter) (sig : List ℤ)
    (hv : f.Valid) (hQ : 0 < f.DecimationFactor) (hT : f.DecimationFactor ≤ f.TapCount) :
    ∃ out : List ℤ, f.FilterInt16 sig = some out ∧
      out.length = sig.length / f.DecimationFactor ∧
      ∀ k, k < sig.length / f.DecimationFactor →
        out[k]? = some (toInt32 (256 * dotProd f.coefs_int16
          (window ((List.range (f.TapCount - f.DecimationFactor)).map
              (fun i => 2 * ((i % 2 : ℕ) : ℤ) - 1) ++ sig)
            (f.DecimationFactor * k) f.TapCount))) := by
  rw [Stage1Filter.FilterInt16, if_pos ⟨hQ, hT⟩]
  refine ⟨_, rfl, by simp, ?_⟩
  intro k hk
  rw [range_map_getElem? _ hk]
  congr 1
  rw [dotProd_comm]
  exact toInt32_wrap_mul256 _

/-- Counterexample to C1 as stated: this `Stage1Filter` passes every
constructor assertion (so it is validly constructed) but its decimation
factor 512 exceeds its tap count 256, and `FilterInt16` then raises inside
`_pad_input` (negative padding / broadcast mismatch) instead of returning
the promised windowed dot products. -/
theorem stage1_filterInt16_raises_large_Q :
    Stage1Filter.Valid ⟨List.replicate 256 1, 512⟩ ∧
    Stage1Filter.FilterInt16 ⟨List.replicate 256 1, 512⟩ (List.replicate 512 1) = none := by
  decide

/-- Witness for C1 at a concrete valid filter (256 all-one taps, decimation
32) and a 64-sample signal. -/
theorem stage1_filterInt16_windows_witness :
    Stage1Filter.Valid ⟨List.replicate 256 1, 32⟩ ∧
    0 < Stage1Filter.DecimationFactor ⟨List.replicate 256 1, 32⟩ ∧
    Stage1Filter.DecimationFactor ⟨List.replicate 256 1, 32⟩ ≤
      Stage1Filter.TapCount ⟨List.replicate 256 1, 32⟩ ∧
    (∃ out : List ℤ,
      Stage1Filter.FilterInt16 ⟨List.replicate 256 1, 32⟩ (List.replicate 64 1) = some out ∧
      out.length = (List.replicate 64 (1 : ℤ)).length /
        Stage1Filter.DecimationFactor ⟨List.replicate 256 1, 32⟩ ∧
      ∀ k, k < (List.replicate 64 (1 : ℤ)).length /
          Stage1Filter.DecimationFactor ⟨List.replicate 256 1, 32⟩ →
        out[k]? = some (toInt32 (256 * dotProd
          (Stage1Filter.coefs_int16 ⟨List.replicate 256 1, 32⟩)
          (window ((List.range (Stage1Filter.TapCount ⟨List.replicate 256 1, 32⟩ -
              Stage1Filter.DecimationFactor ⟨List.replicate 256 1, 32⟩)).map
              (fun i => 2 * ((i % 2 : ℕ) : ℤ) - 1) ++ List.replicate 64 1)
            (Stage1Filter.DecimationFactor ⟨List.replicate 256 1, 32⟩ * k)
            (Stage1Filter.TapCount ⟨List.replicate 256 1, 32⟩))))) :=
  ⟨by decide, by decide, by decide,
    stage1_filterInt16_windows ⟨List.replicate 256 1, 32⟩ (List.replicate 64 1)
      (by decide) (by decide) (by decide)⟩

/-- The quantized taps of the single-tap unit filter: the peak is index 0,
the scale is `2147483647 / 1`, and the tap quantizes to `2 ^ 31 - 1`. -/
theorem stage2_unit_coefs_int32 (q : ℕ) :
    Stage2Filter.coefs_int32 ⟨[1], q⟩ = [2147483647] := by
  unfold Stage2Filter.coefs_int32 Stage2Filter.scale_int32 Stage2Filter.peakCoef
    Stage2Filter.peakIdx
  simp only [List.map_cons, List.map_nil, argmaxAbs, argmaxAbsAux, List.getD, List.getElem?_cons_zero,
    Option.getD_some]
  norm_num
  rw [show ((2147483647 : ℚ)) = ((2147483647 : ℤ) : ℚ) by norm_num, roundHalfEven_intCast]
  decide

/-- The worst-case one-block magnitude of the single-tap unit filter:
`0x7FFFFF00 * sign(2 ^ 31 - 1) * round((2 ^ 31 - 1) / 2 ^ 30) = 0x7FFFFF00 * 2`. -/
theorem stage2_unit_maxSampOut (q : ℕ) :
    Stage2Filter.maxSampOut ⟨[1], q⟩ = 4294966784 := by
  unfold Stage2Filter.maxSampOut
  rw [stage2_unit_coefs_int32]
  simp only [List.map_cons, List.map_nil, List.sum_cons, List.sum_nil]
  have hr : roundHalfEven ((2147483647 : ℚ) / 2 ^ 30) = 2 := by
    have h := roundHalfEven_eq_right (q := (2147483647 : ℚ) / 2 ^ 30) (n := 1)
      (by norm_num) (by norm_num)
    simpa using h
  push_cast
  rw [hr]
  decide

/-- The single-tap unit filter passes every constructor step, for any
decimation factor. -/
theorem stage2_unit_valid (q : ℕ) : Stage2Filter.Valid ⟨[1], q⟩ := by
  refine ⟨by simp, ?_, ?_⟩
  · unfold Stage2Filter.peakCoef Stage2Filter.peakIdx
    simp [argmaxAbs, argmaxAbsAux]
  · rw [stage2_unit_maxSampOut]
    norm_num

/-- C2 (amended with the presupposition `1 <= Q <= TapCount`; see the
counterexample below): `FilterInt32` left-pads with `TapCount - Q` zeros,
and output `k` (for every `k < len(sig) / Q`) is the dot product of the
time-reversed int32 coefficients with the padded window
`[Q*k, Q*k + TapCount)` accumulated in wrapping 64-bit arithmetic,
multiplied by the exact scale `2 ^ (-30 - shr_int32)`, rounded to the
nearest integer (ties to even, numpy `np.round`), and cast to int32. -/
theorem stage2_filterInt32_windows (f : Stage2Filter) (sig : List ℤ)
    (hv : f.Valid) (hQ : 0 < f.DecimationFactor) (hT : f.DecimationFactor ≤ f.TapCount) :
    ∃ out : List ℤ, f.FilterInt32 sig = some out ∧
      out.length = sig.length / f.DecimationFactor ∧
      ∀ k, k < sig.length / f.DecimationFactor →
        out[k]? = some (toInt32 (roundHalfEven
          ((toInt64 (dotProd f.coefs_int32.reverse
            (window (List.replicate (f.TapCount - f.DecimationFactor) 0 ++ sig)
              (f.DecimationFactor * k) f.TapCount)) : ℚ) *
           (2 : ℚ) ^ (-(30 + f.shr_int32))))) := by
  rw [Stage2Filter.FilterInt32, if_pos ⟨hQ, hT⟩]
  refine ⟨_, rfl, by simp, ?_⟩
  intro k hk
  rw [range_map_getElem? _ hk]
  rw [dotProd_comm]
  rfl

/-- Counterexample to C2 as stated: a validly constructed `Stage2Filter`
whose decimation factor 2 exceeds its tap count 1; `FilterInt32` raises in
`_pad_input` (broadcast mismatch) instead of producing the promised
outputs. -/
theorem stage2_filterInt32_raises_large_Q :
    Stage2Filter.Valid ⟨[1], 2⟩ ∧
    Stage2Filter.FilterInt32 ⟨[1], 2⟩ [0, 0] = none := by
  constructor
  · exact stage2_unit_valid 2
  · rw [Stage2Filter.FilterInt32, if_neg (by decide)]

/-- Witness for C2 at the concrete single-tap unit filter (decimation 1)
and the two-sample signal `[5, 6]`. -/
theorem stage2_filterInt32_windows_witness :
    Stage2Filter.Valid ⟨[1], 1⟩ ∧
    0 < Stage2Filter.DecimationFactor ⟨[1], 1⟩ ∧
    Stage2Filter.DecimationFactor ⟨[1], 1⟩ ≤ Stage2Filter.TapCount ⟨[1], 1⟩ ∧
    (∃ out : List ℤ, Stage2Filter.FilterInt32 ⟨[1], 1⟩ [5, 6] = some out ∧
      out.length = ([5, 6] : List ℤ).length / Stage2Filter.DecimationFactor ⟨[1], 1⟩ ∧
      ∀ k, k < ([5, 6] : List ℤ).length / Stage2Filter.DecimationFactor ⟨[1], 1⟩ →
        out[k]? = some (toInt32 (roundHalfEven
          ((toInt64 (dotProd (Stage2Filter.coefs_int32 ⟨[1], 1⟩).reverse
            (window (List.replicate (Stage2Filter.TapCount ⟨[1], 1⟩ -
                Stage2Filter.DecimationFactor ⟨[1], 1⟩) 0 ++ [5, 6])
              (Stage2Filter.DecimationFactor ⟨[1], 1⟩ * k)
              (Stage2Filter.TapCount ⟨[1], 1⟩))) : ℚ) *
           (2 : ℚ) ^ (-(30 + Stage2Filter.shr_int32 ⟨[1], 1⟩)))))) :=
  ⟨stage2_unit_valid 1, by decide, by decide,
    stage2_filterInt32_windows ⟨[1], 1⟩ [5, 6] (stage2_unit_valid 1) (by decide) (by decide)⟩

/-- C9 (amended with the presupposition `1 <= Q <= TapCount` for each stage;
see the counterexample below): `FilterFloat` returns exactly
`samples_in / Q` (floor division) output samples, at both stages. -/
theorem filterFloat_output_length (f : Stage1Filter) (g : Stage2Filter) (sf sg : List ℚ)
    (hf : f.Valid) (hg : g.Valid)
    (h1 : 0 < f.DecimationFactor) (h2 : f.DecimationFactor ≤ f.TapCount)
    (h3 : 0 < g.DecimationFactor) (h4 : g.DecimationFactor ≤ g.TapCount) :
    (f.FilterFloat sf).map List.length = some (sf.length / f.DecimationFactor) ∧
    (g.FilterFloat sg).map List.length = some (sg.length / g.DecimationFactor) := by
  constructor
  · rw [Stage1Filter.FilterFloat, if_pos ⟨h1, h2⟩]
    simp
  · rw [Stage2Filter.FilterFloat, if_pos ⟨h3, h4⟩]
    simp

/-- Counterexample to C9 as stated: a validly constructed `Stage2Filter`
with decimation factor 3 and tap count 1; on a 3-sample input the claim
promises exactly one output sample, but `FilterFloat` raises inside
`_pad_input` (negative dimension / broadcast mismatch) and returns
nothing. -/
theorem stage2_filterFloat_raises_large_Q :
    Stage2Filter.Valid ⟨[1], 3⟩ ∧
    (Stage2Filter.FilterFloat ⟨[1], 3⟩ [0, 0, 0]).map List.length ≠ some 1 := by
  constructor
  · exact stage2_unit_valid 3
  · rw [Stage2Filter.FilterFloat, if_neg (by decide)]
    decide

/-- Witness for C9 at a concrete valid stage-1 filter (256 all-one taps,
decimation 32, 40-sample input) and the single-tap unit stage-2 filter
(decimation 1, 2-sample input). -/
theorem filterFloat_output_length_witness :
    Stage1Filter.Valid ⟨List.replicate 256 1, 32⟩ ∧ Stage2Filter.Valid ⟨[1], 1⟩ ∧
    0 < Stage1Filter.DecimationFactor ⟨List.replicate 256 1, 32⟩ ∧
    Stage1Filter.DecimationFactor ⟨List.replicate 256 1, 32⟩ ≤
      Stage1Filter.TapCount ⟨List.replicate 256 1, 32⟩ ∧
    0 < Stage2Filter.DecimationFactor ⟨[1], 1⟩ ∧
    Stage2Filter.DecimationFactor ⟨[1], 1⟩ ≤ Stage2Filter.TapCount ⟨[1], 1⟩ ∧
    ((Stage1Filter.FilterFloat ⟨List.replicate 256 1, 32⟩ (List.replicate 40 0)).map List.length =
      some ((List.replicate 40 (0 : ℚ)).length /
        Stage1Filter.DecimationFactor ⟨List.replicate 256 1, 32⟩) ∧
     (Stage2Filter.FilterFloat ⟨[1], 1⟩ [0, 0]).map List.length =
      some (([0, 0] : List ℚ).length / Stage2Filter.DecimationFactor ⟨[1], 1⟩)) :=
  ⟨by decide, stage2_unit_valid 1, by decide, by decide, by decide, by decide,
    filterFloat_output_length ⟨List.replicate 256 1, 32⟩ ⟨[1], 1⟩ (List.replicate 40 0) [0, 0]
      (by decide) (stage2_unit_valid 1) (by decide) (by decide) (by decide) (by decide)⟩

/-- C3: for every validly constructed `Stage2Filter` the derived constant
`shr_int32` equals `floor(log2(S) - 30)` where `S = max_samp_out` is the sum
over the taps of `0x7FFFFF00` signed by the int32 coefficient's sign times
that coefficient scaled by `2 ^ (-30)` and rounded.  In this purely
functional embedding `shr_int32` is a function of the construction inputs
alone, so it can never change after construction. -/
theorem stage2_shr_int32_spec (c : List ℚ) (q : ℕ)
    (hv : Stage2Filter.Valid ⟨c, q⟩) :
    ((Stage2Filter.shr_int32 ⟨c, q⟩ : ℤ) =
      ⌊Real.logb 2 ((Stage2Filter.maxSampOut ⟨c, q⟩ : ℤ) : ℝ) - 30⌋) ∧
    Stage2Filter.maxSampOut ⟨c, q⟩ =
      ((Stage2Filter.coefs_int32 ⟨c, q⟩).map
        (fun ci => 2147483392 * Int.sign ci * roundHalfEven ((ci : ℚ) / 2 ^ 30))).sum := by
  obtain ⟨-, -, hS⟩ := hv
  refine ⟨?_, rfl⟩
  have htn : ((Stage2Filter.maxSampOut ⟨c, q⟩).toNat : ℤ) = Stage2Filter.maxSampOut ⟨c, q⟩ :=
    Int.toNat_of_nonneg (le_of_lt hS)
  have h1 : ((Stage2Filter.maxSampOut ⟨c, q⟩ : ℤ) : ℝ) =
      (((Stage2Filter.maxSampOut ⟨c, q⟩).toNat : ℕ) : ℝ) := by
    exact_mod_cast htn.symm
  rw [show ((30 : ℝ)) = ((30 : ℤ) : ℝ) by norm_num, Int.floor_sub_int,
    show ((2 : ℝ)) = ((2 : ℕ) : ℝ) by norm_num, h1,
    Real.floor_logb_natCast (by positivity), Int.log_natCast]
  rw [Stage2Filter.shr_int32, Nat.log2_eq_log_two]

/-- Witness for C3 at the concrete single-tap unit filter (decimation 1),
where `S = 0x7FFFFF00 * 2` and `shr_int32 = 1`. -/
theorem stage2_shr_int32_spec_witness :
    Stage2Filter.Valid ⟨[1], 1⟩ ∧
    (((Stage2Filter.shr_int32 ⟨[1], 1⟩ : ℤ) =
      ⌊Real.logb 2 ((Stage2Filter.maxSampOut ⟨[1], 1⟩ : ℤ) : ℝ) - 30⌋) ∧
     Stage2Filter.maxSampOut ⟨[1], 1⟩ =
      ((Stage2Filter.coefs_int32 ⟨[1], 1⟩).map
        (fun ci => 2147483392 * Int.sign ci * roundHalfEven ((ci : ℚ) / 2 ^ 30))).sum) :=
  ⟨stage2_unit_valid 1, stage2_shr_int32_spec [1] 1 (stage2_unit_valid 1)⟩

/-- C4 (amended with a nonzero peak coefficient; see the counterexample
below): for every coefficient set the constructors accept whose peak
coefficient is nonzero, the quantized coefficient at the peak index has
absolute value exactly `INT16_MAX_COEFFICIENT = 32766` for stage 1 and
exactly `INT32_MAX_COEFFICIENT = 2 ^ 31 - 1` for stage 2: the scale factor
is `MAX / coef[t]`, so `round(scale * coef[t]) = MAX` exactly. -/
theorem quantized_peak_reaches_max (c1 : List ℚ) (q1 : ℕ) (c2 : List ℚ) (q2 : ℕ)
    (h1 : Stage1Filter.Valid ⟨c1, q1⟩) (hp1 : Stage1Filter.peakCoef ⟨c1, q1⟩ ≠ 0)
    (h2 : Stage2Filter.Valid ⟨c2, q2⟩) (hp2 : Stage2Filter.peakCoef ⟨c2, q2⟩ ≠ 0) :
    |(Stage1Filter.coefs_int16 ⟨c1, q1⟩).getD (argmaxAbs c1) 0| = 32766 ∧
    |(Stage2Filter.coefs_int32 ⟨c2, q2⟩).getD (argmaxAbs c2) 0| = 2147483647 := by
  constructor
  · have hlt : argmaxAbs c1 < c1.length := argmaxAbs_lt_length h1.1
    have hp1g : c1.getD (argmaxAbs c1) 0 ≠ 0 := hp1
    rw [Stage1Filter.coefs_int16, getD_map_of_lt _ c1 0 0 hlt]
    have key : Stage1Filter.scale_int16 ⟨c1, q1⟩ * c1.getD (argmaxAbs c1) 0 = 32766 := by
      rw [Stage1Filter.scale_int16, Stage1Filter.peakCoef, Stage1Filter.peakIdx]
      exact div_mul_cancel₀ _ hp1g
    rw [key, show ((32766 : ℚ)) = ((32766 : ℤ) : ℚ) by norm_num, roundHalfEven_intCast]
    decide
  · have hlt : argmaxAbs c2 < c2.length := argmaxAbs_lt_length h2.1
    have hp2g : c2.getD (argmaxAbs c2) 0 ≠ 0 := hp2
    rw [Stage2Filter.coefs_int32, getD_map_of_lt _ c2 0 0 hlt]
    have key : Stage2Filter.scale_int32 ⟨c2, q2⟩ * c2.getD (argmaxAbs c2) 0 = 2147483647 := by
      rw [Stage2Filter.scale_int32, Stage2Filter.peakCoef, Stage2Filter.peakIdx]
      exact div_mul_cancel₀ _ hp2g
    rw [key, show ((2147483647 : ℚ)) = ((2147483647 : ℤ) : ℚ) by norm_num, roundHalfEven_intCast]
    decide

/-- Counterexample to C4 as stated: the all-zero 256-tap coefficient set
passes every constructor assertion (its peak magnitude 0 is at most 1), but
its peak quantizes through the degenerate scale `32766 / 0` (numpy: inf,
then a nan cast; here the total-division junk value 0) and is not 32766. -/
theorem quantized_peak_zero_coefs :
    Stage1Filter.Valid ⟨List.replicate 256 0, 32⟩ ∧
    |(Stage1Filter.coefs_int16 ⟨List.replicate 256 0, 32⟩).getD
      (argmaxAbs (List.replicate 256 0)) 0| ≠ 32766 := by
  constructor
  · decide
  · have h0 : argmaxAbs (List.replicate 256 (0 : ℚ)) = 0 := by decide
    have hlen : (0 : ℕ) < (List.replicate 256 (0 : ℚ)).length := by decide
    have hget : (List.replicate 256 (0 : ℚ)).getD 0 0 = 0 := by decide
    rw [h0, Stage1Filter.coefs_int16, getD_map_of_lt _ _ 0 0 hlen, hget, mul_zero,
      show ((0 : ℚ)) = ((0 : ℤ) : ℚ) by norm_num, roundHalfEven_intCast]
    decide

/-- Witness for C4 at concrete filters: 256 all-one taps for stage 1 and the
single-tap unit filter for stage 2. -/
theorem quantized_peak_reaches_max_witness :
    Stage1Filter.Valid ⟨List.replicate 256 1, 32⟩ ∧
    Stage1Filter.peakCoef ⟨List.replicate 256 1, 32⟩ ≠ 0 ∧
    Stage2Filter.Valid ⟨[1], 1⟩ ∧ Stage2Filter.peakCoef ⟨[1], 1⟩ ≠ 0 ∧
    (|(Stage1Filter.coefs_int16 ⟨List.replicate 256 1, 32⟩).getD
        (argmaxAbs (List.replicate 256 1)) 0| = 32766 ∧
     |(Stage2Filter.coefs_int32 ⟨[1], 1⟩).getD (argmaxAbs [1]) 0| = 2147483647) :=
  ⟨by decide, by decide, stage2_unit_valid 1, by decide,
    quantized_peak_reaches_max (List.replicate 256 1) 32 [1] 1
      (by decide) (by decide) (stage2_unit_valid 1) (by decide)⟩

/-- The quantized taps of the single-tap negative unit filter: the scale is
`2147483647 / (-1)` and the tap still quantizes to `+(2 ^ 31 - 1)`. -/
theorem stage2_negunit_coefs_int32 (q : ℕ) :
    Stage2Filter.coefs_int32 ⟨[-1], q⟩ = [2147483647] := by
  unfold Stage2Filter.coefs_int32 Stage2Filter.scale_int32 Stage2Filter.peakCoef
    Stage2Filter.peakIdx
  simp only [List.map_cons, List.map_nil, argmaxAbs, argmaxAbsAux, List.getD,
    List.getElem?_cons_zero, Option.getD_some]
  norm_num
  rw [show ((2147483647 : ℚ)) = ((2147483647 : ℤ) : ℚ) by norm_num, roundHalfEven_intCast]
  decide

/-- The worst-case magnitude of the single-tap negative unit filter equals
that of the positive one. -/
theorem stage2_negunit_maxSampOut (q : ℕ) :
    Stage2Filter.maxSampOut ⟨[-1], q⟩ = 4294966784 := by
  unfold Stage2Filter.maxSampOut
  rw [stage2_negunit_coefs_int32]
  simp only [List.map_cons, List.map_nil, List.sum_cons, List.sum_nil]
  have hr : roundHalfEven ((2147483647 : ℚ) / 2 ^ 30) = 2 := by
    have h := roundHalfEven_eq_right (q := (2147483647 : ℚ) / 2 ^ 30) (n := 1)
      (by norm_num) (by norm_num)
    simpa using h
  push_cast
  rw [hr]
  decide

/-- The single-tap negative unit filter passes every constructor step. -/
theorem stage2_negunit_valid (q : ℕ) : Stage2Filter.Valid ⟨[-1], q⟩ := by
  refine ⟨by simp, ?_, ?_⟩
  · unfold Stage2Filter.peakCoef Stage2Filter.peakIdx
    simp [argmaxAbs, argmaxAbsAux]
  · rw [stage2_negunit_maxSampOut]
    norm_num

/-- C10 (amended: the peak coefficient must be nonzero; the all-zero
counterexample below shows the unconditional form fails): for every nonzero
peak the quantized peak is exactly `+32766` - positive even for a negative
float peak, because the scale `32766 / coefs[t]` carries the peak's sign;
consequently, when the peak is negative, every quantized int16 coefficient
is the int16 cast of the negation of the positive-scale quantization
`round((32766 / |coefs[t]|) * coefs[i])` - its sign is inverted relative to
its float counterpart.  Analogously the stage-2 peak quantizes to
`+2147483647`. -/
theorem negative_peak_sign_inversion (c1 : List ℚ) (q1 : ℕ) (c2 : List ℚ) (q2 : ℕ)
    (h1 : Stage1Filter.Valid ⟨c1, q1⟩) (hp1 : Stage1Filter.peakCoef ⟨c1, q1⟩ ≠ 0)
    (h2 : Stage2Filter.Valid ⟨c2, q2⟩) (hp2 : Stage2Filter.peakCoef ⟨c2, q2⟩ ≠ 0) :
    (Stage1Filter.coefs_int16 ⟨c1, q1⟩).getD (argmaxAbs c1) 0 = 32766 ∧
    (Stage1Filter.peakCoef ⟨c1, q1⟩ < 0 →
      ∀ i, i < c1.length → (Stage1Filter.coefs_int16 ⟨c1, q1⟩).getD i 0 =
        toInt16 (-(roundHalfEven ((32766 / |Stage1Filter.peakCoef ⟨c1, q1⟩|) * c1.getD i 0)))) ∧
    (Stage2Filter.coefs_int32 ⟨c2, q2⟩).getD (argmaxAbs c2) 0 = 2147483647 := by
  refine ⟨?_, ?_, ?_⟩
  · have hlt : argmaxAbs c1 < c1.length := argmaxAbs_lt_length h1.1
    have hp1g : c1.getD (argmaxAbs c1) 0 ≠ 0 := hp1
    rw [Stage1Filter.coefs_int16, getD_map_of_lt _ c1 0 0 hlt]
    have key : Stage1Filter.scale_int16 ⟨c1, q1⟩ * c1.getD (argmaxAbs c1) 0 = 32766 := by
      rw [Stage1Filter.scale_int16, Stage1Filter.peakCoef, Stage1Filter.peakIdx]
      exact div_mul_cancel₀ _ hp1g
    rw [key, show ((32766 : ℚ)) = ((32766 : ℤ) : ℚ) by norm_num, roundHalfEven_intCast]
    decide
  · intro hn1 i hi
    have hscale : Stage1Filter.scale_int16 ⟨c1, q1⟩ =
        -(32766 / |Stage1Filter.peakCoef ⟨c1, q1⟩|) := by
      rw [Stage1Filter.scale_int16, abs_of_neg hn1, div_neg, neg_neg]
    rw [Stage1Filter.coefs_int16, getD_map_of_lt _ c1 0 0 hi, hscale, neg_mul,
      roundHalfEven_neg]
  · have hlt : argmaxAbs c2 < c2.length := argmaxAbs_lt_length h2.1
    have hp2g : c2.getD (argmaxAbs c2) 0 ≠ 0 := hp2
    rw [Stage2Filter.coefs_int32, getD_map_of_lt _ c2 0 0 hlt]
    have key : Stage2Filter.scale_int32 ⟨c2, q2⟩ * c2.getD (argmaxAbs c2) 0 = 2147483647 := by
      rw [Stage2Filter.scale_int32, Stage2Filter.peakCoef, Stage2Filter.peakIdx]
      exact div_mul_cancel₀ _ hp2g
    rw [key, show ((2147483647 : ℚ)) = ((2147483647 : ℤ) : ℚ) by norm_num, roundHalfEven_intCast]
    decide

/-- Counterexample to C10 as stated: the all-zero 512-tap coefficient set is
validly constructed but its quantized peak is not `+32766` (degenerate zero
peak; numpy: inf scale and nan cast). -/
theorem stage1_zero_peak_not_max :
    Stage1Filter.Valid ⟨List.replicate 512 0, 32⟩ ∧
    (Stage1Filter.coefs_int16 ⟨List.replicate 512 0, 32⟩).getD
      (argmaxAbs (List.replicate 512 0)) 0 ≠ 32766 := by
  constructor
  · decide
  · have h0 : argmaxAbs (List.replicate 512 (0 : ℚ)) = 0 := by decide
    have hlen : (0 : ℕ) < (List.replicate 512 (0 : ℚ)).length := by decide
    have hget : (List.replicate 512 (0 : ℚ)).getD 0 0 = 0 := by decide
    rw [h0, Stage1Filter.coefs_int16, getD_map_of_lt _ _ 0 0 hlen, hget, mul_zero,
      show ((0 : ℚ)) = ((0 : ℤ) : ℚ) by norm_num, roundHalfEven_intCast]
    decide

/-- Witness for C10 at concrete negative-peak filters (so that the inner
sign-inversion implication is exercised too): stage 1 with taps
`[-1, 0, ..., 0]` (256 taps) and stage 2 with the single tap `[-1]`. -/
theorem negative_peak_sign_inversion_witness :
    Stage1Filter.Valid ⟨-1 :: List.replicate 255 0, 32⟩ ∧
    Stage1Filter.peakCoef ⟨-1 :: List.replicate 255 0, 32⟩ ≠ 0 ∧
    Stage2Filter.Valid ⟨[-1], 1⟩ ∧ Stage2Filter.peakCoef ⟨[-1], 1⟩ ≠ 0 ∧
    ((Stage1Filter.coefs_int16 ⟨-1 :: List.replicate 255 0, 32⟩).getD
        (argmaxAbs (-1 :: List.replicate 255 0)) 0 = 32766 ∧
     (Stage1Filter.peakCoef ⟨-1 :: List.replicate 255 0, 32⟩ < 0 →
       ∀ i, i < (-1 :: List.replicate 255 (0 : ℚ)).length →
       (Stage1Filter.coefs_int16 ⟨-1 :: List.replicate 255 0, 32⟩).getD i 0 =
         toInt16 (-(roundHalfEven ((32766 / |Stage1Filter.peakCoef ⟨-1 :: List.replicate 255 0, 32⟩|) *
           (-1 :: List.replicate 255 (0 : ℚ)).getD i 0)))) ∧
     (Stage2Filter.coefs_int32 ⟨[-1], 1⟩).getD (argmaxAbs [-1]) 0 = 2147483647) :=
  ⟨by decide, by decide, stage2_negunit_valid 1, by decide,
    negative_peak_sign_inversion (-1 :: List.replicate 255 0) 32 [-1] 1
      (by decide) (by decide) (stage2_negunit_valid 1) (by decide)⟩

/-- Summing a constant over an index range. -/
theorem sum_map_range_const (n c : ℕ) : ((List.range n).map (fun _ => c)).sum = n * c := by
  induction n with
  | zero => simp
  | succ m ih =>
    rw [List.range_succ, List.map_append, List.sum_append]
    simp [ih]
    ring

/-- The row-major binary coefficient matrix has `16 * TapCount` entries:
16 bit-plane rows (one per int16 bit) of `TapCount` bits each. -/
theorem coefs_binary_flatten_length (f : Stage1Filter) :
    f.coefs_binary.flatten.length = 16 * f.coefs.length := by
  rw [List.length_flatten]
  have h1 : f.coefs_binary.map List.length = (List.range 16).map (fun _ => f.coefs.length) := by
    rw [Stage1Filter.coefs_binary, bipolarTranspose, Stage1Filter.coefs_bipolar,
      List.map_map, List.map_map]
    apply List.map_congr_left
    intro j hj
    simp [Function.comp, List.length_map, int16_vect_to_bipolar_matrix,
      Stage1Filter.coefs_int16]
  rw [h1]
  exact sum_map_range_const 16 f.coefs.length

/-- C7 (corrected): the packed word array from `ToXCoreCoefArray` has
`(TapCount / 256) * 128` unsigned 32-bit words - 16 bit-plane rows of 8
words per 256-tap block - not `(TapCount / 256) * 8` as the spec states
(that would be a single bit per tap; see the counterexample below). -/
theorem toXCoreCoefArray_length (f : Stage1Filter) (hv : f.Valid) :
    f.ToXCoreCoefArray.length = f.TapCount / 256 * 128 := by
  obtain ⟨hne, hmod, hpk⟩ := hv
  obtain ⟨m, hm⟩ : ∃ m, f.coefs.length = 256 * m :=
    ⟨f.coefs.length / 256, (Nat.div_mul_cancel (Nat.dvd_of_mod_eq_zero hmod)).symm.trans
      (Nat.mul_comm _ _)⟩
  rw [Stage1Filter.ToXCoreCoefArray]
  simp only [List.length_map, List.length_range]
  rw [coefs_binary_flatten_length, Stage1Filter.TapCount, hm]
  omega

/-- Counterexample to C7 as stated: for a valid 256-tap filter the packed
array has 128 words, not `(256 / 256) * 8 = 8`. -/
theorem toXCoreCoefArray_length_not_8 :
    Stage1Filter.Valid ⟨List.replicate 256 1, 32⟩ ∧
    (Stage1Filter.ToXCoreCoefArray ⟨List.replicate 256 1, 32⟩).length ≠
      Stage1Filter.TapCount ⟨List.replicate 256 1, 32⟩ / 256 * 8 := by
  constructor
  · decide
  · rw [Stage1Filter.ToXCoreCoefArray]
    simp only [List.length_map, List.length_range]
    rw [coefs_binary_flatten_length]
    simp [Stage1Filter.TapCount]

/-- Witness for C7 at a concrete valid 512-tap filter (two 256-tap blocks,
256 packed words). -/
theorem toXCoreCoefArray_length_witness :
    Stage1Filter.Valid ⟨List.replicate 512 1, 32⟩ ∧
    (Stage1Filter.ToXCoreCoefArray ⟨List.replicate 512 1, 32⟩).length =
      Stage1Filter.TapCount ⟨List.replicate 512 1, 32⟩ / 256 * 128 :=
  ⟨by decide, toXCoreCoefArray_length ⟨List.replicate 512 1, 32⟩ (by decide)⟩
